import Mathlib

/-!
Shallow embedding of the Social-Agent scheduling core
(src/internal/scheduler.go, src/internal/scheduler/scheduler.go,
src/internal/agent.go, src/unnamed/part_009, src/unnamed/part_011)
together with a verification of its natural-language specification.

Conventions of the embedding:
* Go time.Time is embedded as Int, a timestamp measured in days, so that
  time.Now().AddDate(0, 0, -d) becomes now - d; t.After(u) is u < t.
* The byte-level truncation helpers work on List Char (the code indexes
  bytes; candidate texts are treated as ASCII).
* math/rand is embedded as an explicit stream of naturals: rand.Intn n
  consumes the head x of the stream and returns x % n.
* External collaborators (content source, content generator, destination,
  cron registration) form an explicit environment of fallible functions.
* Routines return the trace of their observable actions (collaborator
  calls, log statements, random draws, sleeps); slog calls keep their
  message string and drop the formatted arguments.
* Go int counters are embedded as Nat, following the documented
  configuration invariant that counts and ages are non-negative.
-/

namespace SocialAgent

/-- Character-list form of the ellipsis marker "..." appended by the Go
truncation helpers. -/
def ellipsis : List Char := ['.', '.', '.']

/-- Everything of the list strictly before its last space character
(none when the list contains no space).  This is the value truncated[:i]
produced by the downward index scan in TruncateForThreads, where i is the
largest index holding a space. -/
def cutAtLastSpace : List Char → Option (List Char)
  | [] => none
  | c :: cs =>
    match cutAtLastSpace cs with
    | some pre => some (c :: pre)
    | none => if c = ' ' then some [] else none

/-- TruncateForThreads from src/internal/agent.go lines 58-71: return the
content unchanged when it fits within maxChars, otherwise take the first
maxChars characters, cut back to the last space, and append an ellipsis
(appending it to the whole maxChars-character cut when no space exists). -/
def TruncateForThreads (content : List Char) (maxChars : Nat) : List Char :=
  if content.length ≤ maxChars then content
  else
    let truncated := content.take maxChars
    match cutAtLastSpace truncated with
    | some pre => pre ++ ellipsis
    | none => truncated ++ ellipsis

/-- truncateContent from src/unnamed/part_009 lines 39-51 (package
content); its body is identical to TruncateForThreads. -/
def truncateContent (content : List Char) (maxCharacters : Nat) : List Char :=
  if content.length ≤ maxCharacters then content
  else
    let truncatedContent := content.take maxCharacters
    match cutAtLastSpace truncatedContent with
    | some pre => pre ++ ellipsis
    | none => truncatedContent ++ ellipsis

theorem cutAtLastSpace_none : ∀ {l : List Char}, cutAtLastSpace l = none → ' ' ∉ l := by
  intro l
  induction l with
  | nil => intro _; simp
  | cons c cs ih =>
    intro h
    simp only [cutAtLastSpace] at h
    cases hcs : cutAtLastSpace cs with
    | some pre => rw [hcs] at h; exact absurd h (by simp)
    | none =>
      rw [hcs] at h
      by_cases hc : c = ' '
      · rw [if_pos hc] at h; exact absurd h (by simp)
      · rw [if_neg hc] at h
        simp only [List.mem_cons, not_or]
        exact ⟨fun hce => hc hce.symm, ih hcs⟩

theorem cutAtLastSpace_some : ∀ {l pre : List Char}, cutAtLastSpace l = some pre →
    ∃ suf, l = pre ++ ' ' :: suf ∧ ' ' ∉ suf := by
  intro l
  induction l with
  | nil => intro pre h; simp [cutAtLastSpace] at h
  | cons c cs ih =>
    intro pre h
    simp only [cutAtLastSpace] at h
    cases hcs : cutAtLastSpace cs with
    | some p =>
      rw [hcs] at h
      obtain ⟨suf, hsuf, hnsp⟩ := ih hcs
      cases h
      exact ⟨suf, by rw [hsuf]; rfl, hnsp⟩
    | none =>
      rw [hcs] at h
      by_cases hc : c = ' '
      · rw [if_pos hc] at h
        cases h
        exact ⟨cs, by rw [hc]; rfl, cutAtLastSpace_none hcs⟩
      · rw [if_neg hc] at h; exact absurd h (by simp)

theorem cutAtLastSpace_length {l pre : List Char} (h : cutAtLastSpace l = some pre) :
    pre.length < l.length := by
  obtain ⟨suf, hsuf, -⟩ := cutAtLastSpace_some h
  rw [hsuf]
  simp only [List.length_append, List.length_cons]
  omega

/-- Post from src/internal/twitter.go lines 14-23 (the candidate items
returned by ContentSource.QueryWorkRantTweets); CreatedAt is a timestamp
in days. -/
structure Post where
  id : String
  title : String
  content : String
  author : String
  score : Int
  source : String
  createdAt : Int
  url : String
deriving Repr, DecidableEq, Inhabited

/-- GeneratedPost from src/internal/agent.go lines 23-28. -/
structure GeneratedPost where
  content : String
  sourceURL : String
  sourceAuthor : String
  createdAt : Int
deriving Repr, DecidableEq, Inhabited

/-- SchedulerConfig from src/internal/scheduler.go lines 36-43.  Counts,
ages and hours are Nat, per the documented invariant that they are
non-negative. -/
structure SchedulerConfig where
  postingHours : List Nat
  followUsersPerDay : Nat
  likePostsPerDay : Nat
  maxContentAgeDays : Nat
  postContentTheme : String
  testMode : Bool
deriving Repr, DecidableEq

/-- Which routine a cron closure registered by Start would invoke. -/
inductive RoutineKind where
  | post
  | follow
  | like
deriving Repr, DecidableEq

/-- Observable actions of the scheduler and its routines: collaborator
calls, slog statements (message string only), random draws (argument of
rand.Intn together with the value drawn), sleeps, cron registration and
cron engine start. -/
inductive Event where
  | logInfo (msg : String)
  | logError (msg : String)
  | logDebug (msg : String)
  | queryTweets (limit : Nat)
  | generateCall (p : Post)
  | createPostCall (text : String)
  | followCall (author : String)
  | likeCall (postID : String)
  | getRecentCall (limit : Nat)
  | likeRecentCall (count : Nat)
  | sleep (secs : Nat)
  | draw (arg : Nat) (val : Nat)
  | addFuncCall (kind : RoutineKind) (minute : Nat) (hour : Nat)
  | cronStart
deriving Repr, DecidableEq

/-- The stream of values produced by the global math/rand source. -/
abbrev RandStream := List Nat

/-- rand.Intn n: consume the head x of the stream and return x % n (an
exhausted stream yields 0, which is within range whenever n is positive;
the safety theorem for C10 shows every call made by the routines has a
positive argument). -/
def randIntn (rng : RandStream) (n : Nat) : Nat × RandStream :=
  match rng with
  | [] => (0, [])
  | x :: rest => (x % n, rest)

/-- Environment of external collaborators: ContentSource (twitter),
Agent.Generate, the SocialMediaClient destination, the bluesky
ContentDestination of the scheduler-package variant, cron.AddFunc (keyed
by the routine closure and the minute/hour of the cron spec string), and
the current time. -/
structure Env where
  queryWorkRantTweets : Nat → Except String (List Post)
  generate : Post → Except String GeneratedPost
  createPost : String → Except String String
  followUser : String → Except String Unit
  likePost : String → Except String Unit
  getRecentPosts : Nat → Except String (List String)
  likeRecentPosts : Nat → Except String Unit
  addFunc : RoutineKind → Nat → Nat → Except String Unit
  now : Int

/-- Filter loop of postRoutine, src/internal/scheduler.go lines 143-149:
keep the candidates whose CreatedAt is strictly after
now.AddDate(0, 0, -maxContentAgeDays). -/
def recentPostsOf (now : Int) (maxContentAgeDays : Nat) (posts : List Post) : List Post :=
  posts.filter (fun p => now - (maxContentAgeDays : Int) < p.createdAt)

/-- postRoutine from src/internal/scheduler.go lines 129-172: fetch 10
candidates, drop the stale ones, pick one uniformly at random, generate
the post text and publish it; any failure logs and returns early. -/
def postRoutine (env : Env) (cfg : SchedulerConfig) (rng : RandStream) :
    List Event × RandStream :=
  let pre := [Event.logInfo "starting post creation routine", Event.queryTweets 10]
  match env.queryWorkRantTweets 10 with
  | .error _ => (pre ++ [Event.logError "failed to query Twitter/X"], rng)
  | .ok posts =>
    if posts.length = 0 then
      (pre ++ [Event.logError "no work rant posts found on Twitter/X"], rng)
    else
      let recentPosts := recentPostsOf env.now cfg.maxContentAgeDays posts
      if recentPosts.length = 0 then
        (pre ++ [Event.logError "no recent work rant posts found on Twitter/X"], rng)
      else
        let idx := (randIntn rng recentPosts.length).1
        let rng1 := (randIntn rng recentPosts.length).2
        let selectedPost := recentPosts.getD idx default
        let ev1 := pre ++ [Event.draw recentPosts.length idx,
          Event.logDebug "selected post", Event.generateCall selectedPost]
        match env.generate selectedPost with
        | .error _ => (ev1 ++ [Event.logError "failed to generate post"], rng1)
        | .ok generatedPost =>
          match env.createPost generatedPost.content with
          | .error _ => (ev1 ++ [Event.createPostCall generatedPost.content,
              Event.logError "failed to post to social media"], rng1)
          | .ok _ => (ev1 ++ [Event.createPostCall generatedPost.content,
              Event.logInfo "successfully posted to social media"], rng1)

/-- Author-pool loop of followRoutine, src/internal/scheduler.go lines
183-190: first occurrence of each author, skipping empty authors. -/
def collectAuthors (posts : List Post) : List String :=
  posts.foldl (fun authors p =>
    if p.author ∈ authors ∨ p.author = "" then authors else authors ++ [p.author]) []

/-- Author-pool loop of the part_011 scheduler variant, src/unnamed/
part_011 lines 178-185: first occurrence of each author, skipping the
"[deleted]" sentinel (empty authors are not skipped there). -/
def collectAuthorsThreads (posts : List Post) : List String :=
  posts.foldl (fun authors p =>
    if p.author ∈ authors ∨ p.author = "[deleted]" then authors else authors ++ [p.author]) []

/-- Common shape of the follow and like fan-out loops (src/internal/
scheduler.go lines 202-217 and 239-254): count times, draw a random index
into the remaining pool, remove that element, act on it; on failure log
and continue, on success log and sleep sleepBase + rand.Intn(sleepJit)
seconds. -/
def engageLoop (act : String → Except String Unit) (callEv : String → Event)
    (failMsg okMsg : String) (sleepBase sleepJit : Nat) :
    Nat → List String → RandStream → List Event × RandStream
  | 0, _, rng => ([], rng)
  | Nat.succ k, pool, rng =>
    let idx := (randIntn rng pool.length).1
    let rng1 := (randIntn rng pool.length).2
    let item := pool.getD idx ""
    let pool1 := pool.eraseIdx idx
    match act item with
    | .error _ =>
      let r := engageLoop act callEv failMsg okMsg sleepBase sleepJit k pool1 rng1
      (Event.draw pool.length idx :: callEv item :: Event.logError failMsg :: r.1, r.2)
    | .ok _ =>
      let s := (randIntn rng1 sleepJit).1
      let rng2 := (randIntn rng1 sleepJit).2
      let r := engageLoop act callEv failMsg okMsg sleepBase sleepJit k pool1 rng2
      (Event.draw pool.length idx :: callEv item :: Event.logInfo okMsg ::
        Event.draw sleepJit s :: Event.sleep (sleepBase + s) :: r.1, r.2)

/-- followRoutine from src/internal/scheduler.go lines 174-218: fetch 20
candidates, build the deduplicated author pool, clamp the follow count to
the pool size, and follow that many authors sampled without
replacement. -/
def followRoutine (env : Env) (cfg : SchedulerConfig) (rng : RandStream) :
    List Event × RandStream :=
  let pre := [Event.logInfo "starting follow routine", Event.queryTweets 20]
  match env.queryWorkRantTweets 20 with
  | .error _ => (pre ++ [Event.logError "failed to fetch posts for follow routine"], rng)
  | .ok posts =>
    let authors := collectAuthors posts
    if authors.length = 0 then
      (pre ++ [Event.logError "no valid authors found to follow"], rng)
    else
      let followCount := min cfg.followUsersPerDay authors.length
      let r := engageLoop env.followUser Event.followCall
        "failed to follow user" "followed user" 2 3 followCount authors rng
      (pre ++ r.1, r.2)

/-- likeRoutine from src/internal/scheduler.go lines 220-255: fetch up to
50 recent post ids from the destination, clamp the like count to what was
returned, and like that many ids sampled without replacement. -/
def likeRoutine (env : Env) (cfg : SchedulerConfig) (rng : RandStream) :
    List Event × RandStream :=
  let pre := [Event.logInfo "starting like routine", Event.getRecentCall 50]
  match env.getRecentPosts 50 with
  | .error _ => (pre ++ [Event.logError "failed to fetch recent posts"], rng)
  | .ok postIDs =>
    if postIDs.length = 0 then
      (pre ++ [Event.logError "no posts found on timeline"], rng)
    else
      let likeCount := min cfg.likePostsPerDay postIDs.length
      let r := engageLoop env.likePost Event.likeCall
        "failed to like post" "liked post" 1 2 likeCount postIDs rng
      (pre ++ r.1, r.2)

/-- likeRoutine of the scheduler-package variant, src/internal/scheduler/
scheduler.go lines 161-177: skip with a log when LikePostsPerDay is not
positive, otherwise delegate to the destination's LikeRecentPosts. -/
def likeRoutineV2 (env : Env) (likePostsPerDay : Nat) : List Event :=
  if likePostsPerDay = 0 then
    [Event.logInfo "starting like routine",
     Event.logInfo "like routine skipped (LikePostsPerDay is 0)"]
  else
    match env.likeRecentPosts likePostsPerDay with
    | .error _ => [Event.logInfo "starting like routine",
        Event.likeRecentCall likePostsPerDay, Event.logError "failed to like recent posts"]
    | .ok _ => [Event.logInfo "starting like routine",
        Event.likeRecentCall likePostsPerDay, Event.logInfo "like routine completed"]

/-- Outcome of Scheduler.Start: nil, or the error of the failed
cron.AddFunc registration. -/
inductive StartResult where
  | ok
  | registrationError (e : String)
deriving Repr, DecidableEq

/-- Posting-hour registration loop of Start, src/internal/scheduler.go
lines 74-87: for each configured hour draw a random minute, register a
daily trigger for the post routine, and stop at the first registration
error. -/
def registerPostTriggers (env : Env) :
    List Nat → RandStream → List Event × RandStream × Option String
  | [], rng => ([], rng, none)
  | hour :: rest, rng =>
    let minute := (randIntn rng 60).1
    let rng1 := (randIntn rng 60).2
    match env.addFunc RoutineKind.post minute hour with
    | .error e =>
      ([Event.draw 60 minute, Event.addFuncCall RoutineKind.post minute hour,
        Event.logError "failed to schedule post"], rng1, some e)
    | .ok _ =>
      let r := registerPostTriggers env rest rng1
      (Event.draw 60 minute :: Event.addFuncCall RoutineKind.post minute hour ::
        Event.logInfo "scheduled post creation" :: r.1, r.2.1, r.2.2)

/-- Start from src/internal/scheduler.go lines 63-121.  In test mode run
the three routines once, back to back, and return nil.  Otherwise
register one daily post trigger per configured hour, one follow trigger
at hour 9 + rand.Intn(10), one like trigger at hour 10 + rand.Intn(9),
each with minute rand.Intn(60); a registration failure is returned at
once, and the cron engine is started only after all registrations
succeed. -/
def Start (env : Env) (cfg : SchedulerConfig) (rng : RandStream) :
    List Event × StartResult :=
  if cfg.testMode then
    let p1 := postRoutine env cfg rng
    let p2 := followRoutine env cfg p1.2
    let p3 := likeRoutine env cfg p2.2
    (Event.logInfo "test mode: running routines once" :: (p1.1 ++ p2.1 ++ p3.1 ++
      [Event.logInfo "test mode: all routines completed"]), StartResult.ok)
  else
    let reg := registerPostTriggers env cfg.postingHours rng
    let evs := reg.1
    let rng1 := reg.2.1
    match reg.2.2 with
    | some e => (evs, StartResult.registrationError e)
    | none =>
      let fh := (randIntn rng1 10).1
      let rng2 := (randIntn rng1 10).2
      let followHour := 9 + fh
      let followMin := (randIntn rng2 60).1
      let rng3 := (randIntn rng2 60).2
      match env.addFunc RoutineKind.follow followMin followHour with
      | .error e =>
        (evs ++ [Event.draw 10 fh, Event.draw 60 followMin,
          Event.addFuncCall RoutineKind.follow followMin followHour,
          Event.logError "failed to schedule follow routine"],
         StartResult.registrationError e)
      | .ok _ =>
        let evs2 := evs ++ [Event.draw 10 fh, Event.draw 60 followMin,
          Event.addFuncCall RoutineKind.follow followMin followHour,
          Event.logInfo "scheduled follow routine"]
        let lh := (randIntn rng3 9).1
        let rng4 := (randIntn rng3 9).2
        let likeHour := 10 + lh
        let likeMin := (randIntn rng4 60).1
        match env.addFunc RoutineKind.like likeMin likeHour with
        | .error e =>
          (evs2 ++ [Event.draw 9 lh, Event.draw 60 likeMin,
            Event.addFuncCall RoutineKind.like likeMin likeHour,
            Event.logError "failed to schedule like routine"],
           StartResult.registrationError e)
        | .ok _ =>
          (evs2 ++ [Event.draw 9 lh, Event.draw 60 likeMin,
            Event.addFuncCall RoutineKind.like likeMin likeHour,
            Event.logInfo "scheduled like routine", Event.cronStart,
            Event.logInfo "scheduler started"], StartResult.ok)

/-- True on the entry log of one of the three routines; each routine
logs its own entry message first and never logs another routine's. -/
def isRoutineEntry : Event → Bool
  | Event.logInfo msg =>
    msg == "starting post creation routine" ||
    msg == "starting follow routine" ||
    msg == "starting like routine"
  | _ => false

/-- True on the scheduling actions: a cron.AddFunc registration or the
start of the cron engine. -/
def isSchedulingAction : Event → Bool
  | Event.addFuncCall _ _ _ => true
  | Event.cronStart => true
  | _ => false

/-- The (kind, minute, hour) triples of the trigger registrations in a
trace, in order. -/
def registrationsOf (tr : List Event) : List (RoutineKind × Nat × Nat) :=
  tr.filterMap (fun e => match e with
    | Event.addFuncCall k m h => some (k, m, h)
    | _ => none)

/-- The authors passed to Destination.FollowUser in a trace, in order. -/
def followCallsOf (tr : List Event) : List String :=
  tr.filterMap (fun e => match e with
    | Event.followCall a => some a
    | _ => none)

/-- The number of timeline-listing (GetRecentPosts) calls in a trace. -/
def listRecentCallsOf (tr : List Event) : Nat :=
  (tr.filter (fun e => match e with
    | Event.getRecentCall _ => true
    | _ => false)).length

/-- The post ids passed to Destination.LikePost in a trace, in order. -/
def likeCallsOf (tr : List Event) : List String :=
  tr.filterMap (fun e => match e with
    | Event.likeCall p => some p
    | _ => none)

/-- Every random draw in the trace used a positive rand.Intn argument and
produced a value below it (so every randomized index access into a pool
of that length is in bounds). -/
def drawsOk (tr : List Event) : Prop :=
  ∀ a v, Event.draw a v ∈ tr → 0 < a ∧ v < a

theorem getD_mem {α : Type} (d : α) : ∀ (l : List α) (i : Nat), i < l.length →
    l.getD i d ∈ l := by
  intro l
  induction l with
  | nil => intro i h; simp at h
  | cons a tl ih =>
    intro i h
    cases i with
    | zero => simp
    | succ j =>
      simp only [List.getD_cons_succ]
      exact List.mem_cons_of_mem a (ih j (by simpa [Nat.succ_lt_succ_iff] using h))

theorem eraseIdx_length {α : Type} : ∀ (l : List α) (i : Nat), i < l.length →
    (l.eraseIdx i).length = l.length - 1 := by
  intro l
  induction l with
  | nil => intro i h; simp at h
  | cons a tl ih =>
    intro i h
    cases i with
    | zero => simp
    | succ j =>
      have hj : j < tl.length := by simpa [Nat.succ_lt_succ_iff] using h
      simp only [List.eraseIdx_cons_succ, List.length_cons]
      rw [ih j hj]
      omega

theorem getD_not_mem_eraseIdx {α : Type} (d : α) : ∀ (l : List α) (i : Nat),
    i < l.length → l.Nodup → l.getD i d ∉ l.eraseIdx i := by
  intro l
  induction l with
  | nil => intro i h; simp at h
  | cons a tl ih =>
    intro i h hnd
    rcases List.nodup_cons.mp hnd with ⟨ha, htl⟩
    cases i with
    | zero => simpa using ha
    | succ j =>
      have hj : j < tl.length := by simpa [Nat.succ_lt_succ_iff] using h
      simp only [List.getD_cons_succ, List.eraseIdx_cons_succ, List.mem_cons, not_or]
      refine ⟨fun heq => ha (heq ▸ getD_mem d tl j hj), ih j hj htl⟩

theorem eraseIdx_nodup {α : Type} (l : List α) (i : Nat) (h : l.Nodup) :
    (l.eraseIdx i).Nodup :=
  (List.eraseIdx_sublist l i).nodup h

theorem mem_of_mem_eraseIdx {α : Type} {l : List α} {i : Nat} {a : α}
    (h : a ∈ l.eraseIdx i) : a ∈ l :=
  (List.eraseIdx_sublist l i).mem h

theorem randIntn_lt {rng : RandStream} {n : Nat} (h : 0 < n) : (randIntn rng n).1 < n := by
  cases rng with
  | nil => simpa [randIntn] using h
  | cons x rest => simpa [randIntn] using Nat.mod_lt x h

theorem engageLoop_filter (p : Event → Bool) (act : String → Except String Unit)
    (callEv : String → Event) (failMsg okMsg : String) (sleepBase sleepJit : Nat)
    (hc : ∀ s, p (callEv s) = false)
    (hf : p (Event.logError failMsg) = false)
    (ho : p (Event.logInfo okMsg) = false)
    (hd : ∀ a v, p (Event.draw a v) = false)
    (hs : ∀ s, p (Event.sleep s) = false) :
    ∀ (n : Nat) (pool : List String) (rng : RandStream),
      ((engageLoop act callEv failMsg okMsg sleepBase sleepJit n pool rng).1).filter p = [] := by
  intro n
  induction n with
  | zero => intro pool rng; simp [engageLoop]
  | succ k ih =>
    intro pool rng
    simp only [engageLoop]
    cases hact : act (pool.getD (randIntn rng pool.length).1 "") with
    | error e => simp [hact, List.filter_cons, hc, hf, hd, ih]
    | ok u => simp [hact, List.filter_cons, hc, hf, ho, hd, hs, ih]

theorem engageLoop_calls_length (g : Event → Option String)
    (act : String → Except String Unit) (callEv : String → Event)
    (failMsg okMsg : String) (sleepBase sleepJit : Nat)
    (hg1 : ∀ s, g (callEv s) = some s)
    (hgd : ∀ a v, g (Event.draw a v) = none)
    (hgf : g (Event.logError failMsg) = none)
    (hgo : g (Event.logInfo okMsg) = none)
    (hgs : ∀ s, g (Event.sleep s) = none) :
    ∀ (n : Nat) (pool : List String) (rng : RandStream),
      (((engageLoop act callEv failMsg okMsg sleepBase sleepJit n pool rng).1).filterMap g).length
        = n := by
  intro n
  induction n with
  | zero => intro pool rng; simp [engageLoop]
  | succ k ih =>
    intro pool rng
    simp only [engageLoop]
    cases hact : act (pool.getD (randIntn rng pool.length).1 "") with
    | error e => simp [hact, List.filterMap_cons, hg1, hgd, hgf, ih]
    | ok u => simp [hact, List.filterMap_cons, hg1, hgd, hgf, hgo, hgs, ih]

theorem engageLoop_calls_sampled (g : Event → Option String)
    (act : String → Except String Unit) (callEv : String → Event)
    (failMsg okMsg : String) (sleepBase sleepJit : Nat)
    (hg1 : ∀ s, g (callEv s) = some s)
    (hgd : ∀ a v, g (Event.draw a v) = none)
    (hgf : g (Event.logError failMsg) = none)
    (hgo : g (Event.logInfo okMsg) = none)
    (hgs : ∀ s, g (Event.sleep s) = none) :
    ∀ (n : Nat) (pool : List String) (rng : RandStream), n ≤ pool.length → pool.Nodup →
      (((engageLoop act callEv failMsg okMsg sleepBase sleepJit n pool rng).1).filterMap g).Nodup
      ∧ ∀ c ∈ ((engageLoop act callEv failMsg okMsg sleepBase sleepJit n pool rng).1).filterMap g,
          c ∈ pool := by
  intro n
  induction n with
  | zero => intro pool rng _ _; simp [engageLoop]
  | succ k ih =>
    intro pool rng hle hnd
    have hpos : 0 < pool.length := Nat.lt_of_lt_of_le (Nat.succ_pos k) hle
    have hidx : (randIntn rng pool.length).1 < pool.length := randIntn_lt hpos
    have hitem : pool.getD (randIntn rng pool.length).1 "" ∈ pool :=
      getD_mem "" pool _ hidx
    have hnot : pool.getD (randIntn rng pool.length).1 "" ∉
        pool.eraseIdx (randIntn rng pool.length).1 :=
      getD_not_mem_eraseIdx "" pool _ hidx hnd
    have hlen1 : k ≤ (pool.eraseIdx (randIntn rng pool.length).1).length := by
      rw [eraseIdx_length pool _ hidx]; omega
    have hnd1 : (pool.eraseIdx (randIntn rng pool.length).1).Nodup :=
      eraseIdx_nodup pool _ hnd
    simp only [engageLoop]
    cases hact : act (pool.getD (randIntn rng pool.length).1 "") with
    | error e =>
      obtain ⟨ihnd, ihmem⟩ := ih (pool.eraseIdx (randIntn rng pool.length).1)
        (randIntn rng pool.length).2 hlen1 hnd1
      simp only [hact, List.filterMap_cons, hg1, hgd, hgf]
      constructor
      · exact List.nodup_cons.mpr ⟨fun hmem => hnot (ihmem _ hmem), ihnd⟩
      · intro c hc
        rcases List.mem_cons.mp hc with h | h
        · exact h ▸ hitem
        · exact mem_of_mem_eraseIdx (ihmem c h)
    | ok u =>
      obtain ⟨ihnd, ihmem⟩ := ih (pool.eraseIdx (randIntn rng pool.length).1)
        (randIntn (randIntn rng pool.length).2 sleepJit).2 hlen1 hnd1
      simp only [hact, List.filterMap_cons, hg1, hgd, hgf, hgo, hgs]
      constructor
      · exact List.nodup_cons.mpr ⟨fun hmem => hnot (ihmem _ hmem), ihnd⟩
      · intro c hc
        rcases List.mem_cons.mp hc with h | h
        · exact h ▸ hitem
        · exact mem_of_mem_eraseIdx (ihmem c h)

theorem engageLoop_drawsOk (act : String → Except String Unit) (callEv : String → Event)
    (failMsg okMsg : String) (sleepBase sleepJit : Nat) (hsj : 0 < sleepJit)
    (hcd : ∀ s a v, callEv s ≠ Event.draw a v) :
    ∀ (n : Nat) (pool : List String) (rng : RandStream), n ≤ pool.length →
      drawsOk ((engageLoop act callEv failMsg okMsg sleepBase sleepJit n pool rng).1) := by
  intro n
  induction n with
  | zero => intro pool rng _; intro a v hmem; simp [engageLoop] at hmem
  | succ k ih =>
    intro pool rng hle
    have hpos : 0 < pool.length := Nat.lt_of_lt_of_le (Nat.succ_pos k) hle
    have hidx : (randIntn rng pool.length).1 < pool.length := randIntn_lt hpos
    have hlen1 : k ≤ (pool.eraseIdx (randIntn rng pool.length).1).length := by
      rw [eraseIdx_length pool _ hidx]; omega
    simp only [engageLoop]
    cases hact : act (pool.getD (randIntn rng pool.length).1 "") with
    | error e =>
      intro a v hmem
      simp only [hact, List.mem_cons] at hmem
      rcases hmem with h | h | h | h
      · injection h with h1 h2
        subst h1; subst h2
        exact ⟨hpos, hidx⟩
      · exact absurd h.symm (hcd _ _ _)
      · exact absurd h (by simp)
      · exact ih _ _ hlen1 a v h
    | ok u =>
      intro a v hmem
      simp only [hact, List.mem_cons] at hmem
      rcases hmem with h | h | h | h | h | h
      · injection h with h1 h2
        subst h1; subst h2
        exact ⟨hpos, hidx⟩
      · exact absurd h.symm (hcd _ _ _)
      · exact absurd h (by simp)
      · injection h with h1 h2
        subst h1; subst h2
        exact ⟨hsj, randIntn_lt hsj⟩
      · exact absurd h (by simp)
      · exact ih _ _ hlen1 a v h

theorem postRoutine_entries (env : Env) (cfg : SchedulerConfig) (rng : RandStream) :
    ((postRoutine env cfg rng).1).filter isRoutineEntry =
      [Event.logInfo "starting post creation routine"] := by
  simp only [postRoutine]
  split
  · simp [isRoutineEntry]
  · split
    · simp [isRoutineEntry]
    · split
      · simp [isRoutineEntry]
      · split
        · simp [isRoutineEntry]
        · split <;> simp [isRoutineEntry]

theorem postRoutine_sched (env : Env) (cfg : SchedulerConfig) (rng : RandStream) :
    ((postRoutine env cfg rng).1).filter isSchedulingAction = [] := by
  simp only [postRoutine]
  split
  · simp [isSchedulingAction]
  · split
    · simp [isSchedulingAction]
    · split
      · simp [isSchedulingAction]
      · split
        · simp [isSchedulingAction]
        · split <;> simp [isSchedulingAction]

theorem followRoutine_entries (env : Env) (cfg : SchedulerConfig) (rng : RandStream) :
    ((followRoutine env cfg rng).1).filter isRoutineEntry =
      [Event.logInfo "starting follow routine"] := by
  simp only [followRoutine]
  split
  · simp [isRoutineEntry]
  · split
    · simp [isRoutineEntry]
    · rw [List.filter_append]
      rw [engageLoop_filter isRoutineEntry _ _ _ _ _ _ (by intro s; rfl) (by rfl)
        (by simp [isRoutineEntry]) (by intro a v; rfl) (by intro s; rfl)]
      simp [isRoutineEntry]

theorem followRoutine_sched (env : Env) (cfg : SchedulerConfig) (rng : RandStream) :
    ((followRoutine env cfg rng).1).filter isSchedulingAction = [] := by
  simp only [followRoutine]
  split
  · simp [isSchedulingAction]
  · split
    · simp [isSchedulingAction]
    · rw [List.filter_append]
      rw [engageLoop_filter isSchedulingAction _ _ _ _ _ _ (by intro s; rfl) (by rfl)
        (by rfl) (by intro a v; rfl) (by intro s; rfl)]
      simp [isSchedulingAction]

theorem likeRoutine_entries (env : Env) (cfg : SchedulerConfig) (rng : RandStream) :
    ((likeRoutine env cfg rng).1).filter isRoutineEntry =
      [Event.logInfo "starting like routine"] := by
  simp only [likeRoutine]
  split
  · simp [isRoutineEntry]
  · split
    · simp [isRoutineEntry]
    · rw [List.filter_append]
      rw [engageLoop_filter isRoutineEntry _ _ _ _ _ _ (by intro s; rfl) (by rfl)
        (by simp [isRoutineEntry]) (by intro a v; rfl) (by intro s; rfl)]
      simp [isRoutineEntry]

theorem likeRoutine_sched (env : Env) (cfg : SchedulerConfig) (rng : RandStream) :
    ((likeRoutine env cfg rng).1).filter isSchedulingAction = [] := by
  simp only [likeRoutine]
  split
  · simp [isSchedulingAction]
  · split
    · simp [isSchedulingAction]
    · rw [List.filter_append]
      rw [engageLoop_filter isSchedulingAction _ _ _ _ _ _ (by intro s; rfl) (by rfl)
        (by rfl) (by intro a v; rfl) (by intro s; rfl)]
      simp [isSchedulingAction]

/-- Sample candidate used by the concrete witnesses. -/
def samplePost : Post :=
  ⟨"1", "title", "another meeting rant", "alice", 3, "twitter", 100, "u"⟩

/-- Sample collaborator environment in which every call succeeds. -/
def sampleEnv : Env where
  queryWorkRantTweets := fun _ => Except.ok [samplePost]
  generate := fun _ =>
    Except.ok ⟨"Great, another meeting about meetings.", "u", "alice", 100⟩
  createPost := fun _ => Except.ok "id1"
  followUser := fun _ => Except.ok ()
  likePost := fun _ => Except.ok ()
  getRecentPosts := fun _ => Except.ok ["p1", "p2"]
  likeRecentPosts := fun _ => Except.ok ()
  addFunc := fun _ _ _ => Except.ok ()
  now := 100

/-- Sample configuration with TestMode set. -/
def cfgTest : SchedulerConfig :=
  ⟨[9, 14], 4, 3, 2, "workplace humor", true⟩

/-- Claim C1: with TestMode set, Start synchronously invokes the Post
routine, then the Follow routine, then the Like routine, each exactly
once in that fixed order (their entry logs appear in exactly this order
in the trace), registers no recurring triggers and never starts the cron
engine, and returns nil for every collaborator behaviour — in particular
regardless of whether the routines logged internal errors. -/
theorem start_testMode_runsOnce (env : Env) (cfg : SchedulerConfig) (rng : RandStream)
    (h : cfg.testMode = true) :
    (Start env cfg rng).2 = StartResult.ok ∧
    ((Start env cfg rng).1).filter isRoutineEntry =
      [Event.logInfo "starting post creation routine",
       Event.logInfo "starting follow routine",
       Event.logInfo "starting like routine"] ∧
    ((Start env cfg rng).1).filter isSchedulingAction = [] := by
  refine ⟨?_, ?_, ?_⟩
  · simp [Start, h]
  · simp only [Start, h, if_true, List.filter_cons, List.filter_append]
    rw [postRoutine_entries, followRoutine_entries, likeRoutine_entries]
    simp [isRoutineEntry]
  · simp only [Start, h, if_true, List.filter_cons, List.filter_append]
    rw [postRoutine_sched, followRoutine_sched, likeRoutine_sched]
    simp [isSchedulingAction]

/-- Witness for C1 at the sample environment and test configuration. -/
theorem start_testMode_runsOnce_witness :
    (Start sampleEnv cfgTest []).2 = StartResult.ok ∧
    ((Start sampleEnv cfgTest []).1).filter isRoutineEntry =
      [Event.logInfo "starting post creation routine",
       Event.logInfo "starting follow routine",
       Event.logInfo "starting like routine"] ∧
    ((Start sampleEnv cfgTest []).1).filter isSchedulingAction = [] :=
  start_testMode_runsOnce sampleEnv cfgTest [] rfl

theorem registerPostTriggers_ok (env : Env) : ∀ (hours : List Nat) (rng : RandStream),
    (registerPostTriggers env hours rng).2.2 = none →
    ∃ ms : List Nat, ms.length = hours.length ∧ (∀ m ∈ ms, m < 60) ∧
      registrationsOf (registerPostTriggers env hours rng).1 =
        List.zipWith (fun hr m => (RoutineKind.post, m, hr)) hours ms := by
  intro hours
  induction hours with
  | nil =>
    intro rng _
    exact ⟨[], rfl, by simp, by simp [registerPostTriggers, registrationsOf]⟩
  | cons hour rest ih =>
    intro rng herr
    simp only [registerPostTriggers] at herr ⊢
    cases hadd : env.addFunc RoutineKind.post (randIntn rng 60).1 hour with
    | error e => rw [hadd] at herr; simp at herr
    | ok u =>
      rw [hadd] at herr
      simp only at herr
      obtain ⟨ms, hlen, hlt, heq⟩ := ih (randIntn rng 60).2 herr
      refine ⟨(randIntn rng 60).1 :: ms, by simp [hlen], ?_, ?_⟩
      · intro m hm
        rcases List.mem_cons.mp hm with hm | hm
        · subst hm; exact randIntn_lt (by norm_num)
        · exact hlt m hm
      · simp only [hadd, registrationsOf, List.filterMap_cons, List.zipWith_cons_cons]
        rw [← registrationsOf, heq]

theorem registerPostTriggers_noCron (env : Env) : ∀ (hours : List Nat) (rng : RandStream),
    Event.cronStart ∉ (registerPostTriggers env hours rng).1 := by
  intro hours
  induction hours with
  | nil => intro rng; simp [registerPostTriggers]
  | cons hour rest ih =>
    intro rng
    simp only [registerPostTriggers]
    cases hadd : env.addFunc RoutineKind.post (randIntn rng 60).1 hour with
    | error e => simp
    | ok u => simpa using ih (randIntn rng 60).2

theorem registerPostTriggers_err (env : Env) : ∀ (hours : List Nat) (rng : RandStream)
    (e : String), (registerPostTriggers env hours rng).2.2 = some e →
    ∃ m hr, Event.addFuncCall RoutineKind.post m hr ∈ (registerPostTriggers env hours rng).1 ∧
      env.addFunc RoutineKind.post m hr = Except.error e := by
  intro hours
  induction hours with
  | nil => intro rng e h; simp [registerPostTriggers] at h
  | cons hour rest ih =>
    intro rng e herr
    simp only [registerPostTriggers] at herr ⊢
    cases hadd : env.addFunc RoutineKind.post (randIntn rng 60).1 hour with
    | error e0 =>
      rw [hadd] at herr
      simp only [Option.some_inj] at herr
      subst herr
      exact ⟨(randIntn rng 60).1, hour, by simp, hadd⟩
    | ok u =>
      rw [hadd] at herr
      simp only at herr
      obtain ⟨m, hr, hmem, hfail⟩ := ih (randIntn rng 60).2 e herr
      exact ⟨m, hr, by simp [List.mem_cons, hmem], hfail⟩

theorem registerPostTriggers_allOk (env : Env) : ∀ (hours : List Nat) (rng : RandStream),
    (registerPostTriggers env hours rng).2.2 = none →
    ∀ k m hr, Event.addFuncCall k m hr ∈ (registerPostTriggers env hours rng).1 →
      env.addFunc k m hr = Except.ok () := by
  intro hours
  induction hours with
  | nil => intro rng _ k m hr hmem; simp [registerPostTriggers] at hmem
  | cons hour rest ih =>
    intro rng herr k m hr hmem
    simp only [registerPostTriggers] at herr hmem
    cases hadd : env.addFunc RoutineKind.post (randIntn rng 60).1 hour with
    | error e => rw [hadd] at herr; simp at herr
    | ok u =>
      rw [hadd] at herr hmem
      simp only at herr
      simp only [List.mem_cons] at hmem
      rcases hmem with h | h | h | h
      · exact absurd h (by simp)
      · injection h with h1 h2 h3
        subst h1; subst h2; subst h3
        cases u
        exact hadd
      · exact absurd h (by simp)
      · exact ih (randIntn rng 60).2 herr k m hr h

/-- Claim C3: without TestMode, if any cron.AddFunc registration fails
then Start returns that error and the cron engine is never started; the
engine appears in the trace exactly when Start returns nil, and whenever
the engine was started every registration that was made had
succeeded. -/
theorem start_failClosed (env : Env) (cfg : SchedulerConfig) (rng : RandStream)
    (h : cfg.testMode = false) :
    (∀ e, (Start env cfg rng).2 = StartResult.registrationError e →
      Event.cronStart ∉ (Start env cfg rng).1 ∧
      ∃ k m hr, Event.addFuncCall k m hr ∈ (Start env cfg rng).1 ∧
        env.addFunc k m hr = Except.error e) ∧
    ((Start env cfg rng).2 = StartResult.ok → Event.cronStart ∈ (Start env cfg rng).1) ∧
    (Event.cronStart ∈ (Start env cfg rng).1 →
      ∀ k m hr, Event.addFuncCall k m hr ∈ (Start env cfg rng).1 →
        env.addFunc k m hr = Except.ok ()) := by
  simp only [Start, h, Bool.false_eq_true, if_false]
  have hnc : Event.cronStart ∉ (registerPostTriggers env cfg.postingHours rng).1 :=
    registerPostTriggers_noCron env cfg.postingHours rng
  cases hreg : (registerPostTriggers env cfg.postingHours rng).2.2 with
  | some e0 =>
    simp only [hreg]
    refine ⟨?_, ?_, ?_⟩
    · intro e he
      injection he with h1
      subst h1
      obtain ⟨m, hr2, hmem, hfail⟩ := registerPostTriggers_err env cfg.postingHours rng e0 hreg
      exact ⟨hnc, RoutineKind.post, m, hr2, hmem, hfail⟩
    · intro he; exact absurd he (by simp)
    · intro hc; exact absurd hc hnc
  | none =>
    have hallOk : ∀ k m hr,
        Event.addFuncCall k m hr ∈ (registerPostTriggers env cfg.postingHours rng).1 →
        env.addFunc k m hr = Except.ok () :=
      registerPostTriggers_allOk env cfg.postingHours rng hreg
    simp only [hreg]
    split
    next e1 hf =>
      refine ⟨?_, ?_, ?_⟩
      · intro e he
        injection he with h1
        subst h1
        constructor
        · intro hc
          rcases List.mem_append.mp hc with hc | hc
          · exact hnc hc
          · simp at hc
        · exact ⟨RoutineKind.follow, _, _, by simp, hf⟩
      · intro he; exact absurd he (by simp)
      · intro hc
        rcases List.mem_append.mp hc with hc | hc
        · exact absurd hc hnc
        · simp at hc
    next u1 hf =>
      split
      next e2 hl =>
        refine ⟨?_, ?_, ?_⟩
        · intro e he
          injection he with h1
          subst h1
          constructor
          · intro hc
            rcases List.mem_append.mp hc with hc | hc
            · rcases List.mem_append.mp hc with hc | hc
              · exact hnc hc
              · simp at hc
            · simp at hc
          · exact ⟨RoutineKind.like, _, _, by simp, hl⟩
        · intro he; exact absurd he (by simp)
        · intro hc
          rcases List.mem_append.mp hc with hc | hc
          · rcases List.mem_append.mp hc with hc | hc
            · exact absurd hc hnc
            · simp at hc
          · simp at hc
      next u2 hl =>
        refine ⟨?_, ?_, ?_⟩
        · intro e he; exact absurd he (by simp)
        · intro _; simp
        · intro _ k m hr hmem
          rcases List.mem_append.mp hmem with hmem | hmem
          · rcases List.mem_append.mp hmem with hmem | hmem
            · exact hallOk k m hr hmem
            · simp only [List.mem_cons, List.mem_singleton] at hmem
              rcases hmem with h1 | h1 | h1 | h1 <;> first
                | (injection h1 with h2 h3 h4; subst h2; subst h3; subst h4;
                    cases u1; exact hf)
                | exact absurd h1 (by simp)
          · simp only [List.mem_cons, List.mem_singleton] at hmem
            rcases hmem with h1 | h1 | h1 | h1 | h1 | h1 <;> first
              | (injection h1 with h2 h3 h4; subst h2; subst h3; subst h4;
                  cases u2; exact hl)
              | exact absurd h1 (by simp)

/-- Witness for C3: in the all-success sample environment, a production
configuration starts the cron engine and every made registration
succeeded. -/
theorem start_failClosed_witness :
    (∀ e, (Start sampleEnv ⟨[12], 4, 3, 2, "workplace humor", false⟩ [59, 0, 0, 0, 0]).2 =
        StartResult.registrationError e →
      Event.cronStart ∉ (Start sampleEnv ⟨[12], 4, 3, 2, "workplace humor", false⟩ [59, 0, 0, 0, 0]).1 ∧
      ∃ k m hr, Event.addFuncCall k m hr ∈
          (Start sampleEnv ⟨[12], 4, 3, 2, "workplace humor", false⟩ [59, 0, 0, 0, 0]).1 ∧
        sampleEnv.addFunc k m hr = Except.error e) ∧
    ((Start sampleEnv ⟨[12], 4, 3, 2, "workplace humor", false⟩ [59, 0, 0, 0, 0]).2 =
        StartResult.ok →
      Event.cronStart ∈ (Start sampleEnv ⟨[12], 4, 3, 2, "workplace humor", false⟩ [59, 0, 0, 0, 0]).1) ∧
    (Event.cronStart ∈ (Start sampleEnv ⟨[12], 4, 3, 2, "workplace humor", false⟩ [59, 0, 0, 0, 0]).1 →
      ∀ k m hr, Event.addFuncCall k m hr ∈
          (Start sampleEnv ⟨[12], 4, 3, 2, "workplace humor", false⟩ [59, 0, 0, 0, 0]).1 →
        sampleEnv.addFunc k m hr = Except.ok ()) :=
  start_failClosed sampleEnv ⟨[12], 4, 3, 2, "workplace humor", false⟩ [59, 0, 0, 0, 0] rfl

/-- Sample production configuration (TestMode unset, one posting hour). -/
def cfgProd : SchedulerConfig := ⟨[12], 4, 3, 2, "workplace humor", false⟩

/-- Counterexample to C2 as stated: the post-trigger minute is drawn by
rand.Intn(60), whose range is [0,60), not [0,59) — with a random stream
whose first value is 59 the registered post trigger has minute 59, so
the registered minutes do not all lie in [0,59). -/
theorem start_minute59_counterexample :
    ¬ ∀ r ∈ registrationsOf (Start sampleEnv cfgProd [59, 0, 0, 0, 0]).1,
        r.1 = RoutineKind.post → r.2.1 < 59 := by decide

/-- Claim C2 (amended: the random minutes lie in [0,60), not [0,59)):
without TestMode, on the success path Start registers exactly one daily
post trigger per configured posting hour, in order, each with a random
minute in [0,60), followed by exactly one follow trigger with hour in
[9,18] and one like trigger with hour in [10,18], each with its own
random minute in [0,60). -/
theorem start_registersTriggers (env : Env) (cfg : SchedulerConfig) (rng : RandStream)
    (h : cfg.testMode = false) (hok : (Start env cfg rng).2 = StartResult.ok) :
    ∃ (ms : List Nat) (fm fh lm lh : Nat),
      ms.length = cfg.postingHours.length ∧ (∀ m ∈ ms, m < 60) ∧
      fm < 60 ∧ 9 ≤ fh ∧ fh ≤ 18 ∧ lm < 60 ∧ 10 ≤ lh ∧ lh ≤ 18 ∧
      registrationsOf (Start env cfg rng).1 =
        List.zipWith (fun hr m => (RoutineKind.post, m, hr)) cfg.postingHours ms ++
        [(RoutineKind.follow, fm, fh), (RoutineKind.like, lm, lh)] := by
  simp only [Start, h, Bool.false_eq_true, if_false] at hok ⊢
  split at hok
  next e0 heq => exact absurd hok (by simp)
  next heq =>
    obtain ⟨ms, hlen, hms, hmseq⟩ := registerPostTriggers_ok env cfg.postingHours rng heq
    split at hok
    next e1 hf => exact absurd hok (by simp)
    next u1 hf =>
      split at hok
      next e2 hl => exact absurd hok (by simp)
      next u2 hl =>
        simp only [heq, hf, hl]
        refine ⟨ms,
          (randIntn (randIntn (registerPostTriggers env cfg.postingHours rng).2.1 10).2 60).1,
          9 + (randIntn (registerPostTriggers env cfg.postingHours rng).2.1 10).1,
          (randIntn (randIntn (randIntn (randIntn
            (registerPostTriggers env cfg.postingHours rng).2.1 10).2 60).2 9).2 60).1,
          10 + (randIntn (randIntn (randIntn
            (registerPostTriggers env cfg.postingHours rng).2.1 10).2 60).2 9).1,
          hlen, hms, ?_, ?_, ?_, ?_, ?_, ?_, ?_⟩
        · exact randIntn_lt (by norm_num)
        · exact Nat.le_add_right 9 _
        · have := @randIntn_lt (registerPostTriggers env cfg.postingHours rng).2.1 10
            (by norm_num)
          omega
        · exact randIntn_lt (by norm_num)
        · exact Nat.le_add_right 10 _
        · have := @randIntn_lt
            (randIntn (randIntn (registerPostTriggers env cfg.postingHours rng).2.1 10).2 60).2 9
            (by norm_num)
          omega
        · simp only [registrationsOf, List.filterMap_append] at hmseq ⊢
          rw [hmseq]
          simp

/-- Witness for the amended C2 at the sample environment, one posting
hour and the stream beginning with 59. -/
theorem start_registersTriggers_witness :
    ∃ (ms : List Nat) (fm fh lm lh : Nat),
      ms.length = cfgProd.postingHours.length ∧ (∀ m ∈ ms, m < 60) ∧
      fm < 60 ∧ 9 ≤ fh ∧ fh ≤ 18 ∧ lm < 60 ∧ 10 ≤ lh ∧ lh ≤ 18 ∧
      registrationsOf (Start sampleEnv cfgProd [59, 0, 0, 0, 0]).1 =
        List.zipWith (fun hr m => (RoutineKind.post, m, hr)) cfgProd.postingHours ms ++
        [(RoutineKind.follow, fm, fh), (RoutineKind.like, lm, lh)] :=
  start_registersTriggers sampleEnv cfgProd [59, 0, 0, 0, 0] rfl (by decide)

theorem filter_length_split {α : Type} (p : α → Bool) : ∀ (l : List α),
    (l.filter p).length + (l.filter (fun a => ! p a)).length = l.length := by
  intro l
  induction l with
  | nil => rfl
  | cons a tl ih =>
    cases h : p a <;> simp [List.filter_cons, h] <;> omega

/-- Claim C4: for every fetched candidate list the Post routine keeps
exactly the candidates whose createdAt is strictly after
now - MaxContentAgeDays (in particular, 5 candidates of which exactly 2
are at or before the cutoff leave exactly 3 eligible), and when the
filtered set is empty the routine returns after logging, calling neither
the generator nor Destination.CreatePost. -/
theorem postRoutine_ageFilter (env : Env) (cfg : SchedulerConfig) (rng : RandStream)
    (posts : List Post) (hq : env.queryWorkRantTweets 10 = Except.ok posts) :
    (∀ p, p ∈ recentPostsOf env.now cfg.maxContentAgeDays posts ↔
      p ∈ posts ∧ env.now - (cfg.maxContentAgeDays : Int) < p.createdAt) ∧
    (posts.length = 5 →
      (posts.filter (fun p =>
        decide (p.createdAt ≤ env.now - (cfg.maxContentAgeDays : Int)))).length = 2 →
      (recentPostsOf env.now cfg.maxContentAgeDays posts).length = 3) ∧
    (recentPostsOf env.now cfg.maxContentAgeDays posts = [] →
      (∀ q, Event.generateCall q ∉ (postRoutine env cfg rng).1) ∧
      (∀ t, Event.createPostCall t ∉ (postRoutine env cfg rng).1)) := by
  refine ⟨?_, ?_, ?_⟩
  · intro p
    simp [recentPostsOf, List.mem_filter]
  · intro h5 h2
    have hsplit := filter_length_split
      (fun p => decide (env.now - (cfg.maxContentAgeDays : Int) < p.createdAt)) posts
    have hco : posts.filter (fun p =>
        ! decide (env.now - (cfg.maxContentAgeDays : Int) < p.createdAt)) =
        posts.filter (fun p =>
        decide (p.createdAt ≤ env.now - (cfg.maxContentAgeDays : Int))) := by
      apply List.filter_congr
      intro a _
      by_cases h : env.now - (cfg.maxContentAgeDays : Int) < a.createdAt
      · simp [h, not_le.mpr h]
      · simp [h, not_lt.mp h]
    rw [hco, h2] at hsplit
    simp only [recentPostsOf]
    omega
  · intro hempty
    have h1 : (recentPostsOf env.now cfg.maxContentAgeDays posts).length = 0 := by
      rw [hempty]; rfl
    constructor
    · intro q
      by_cases h0 : posts.length = 0 <;> simp [postRoutine, hq, h0, h1]
    · intro t
      by_cases h0 : posts.length = 0 <;> simp [postRoutine, hq, h0, h1]

/-- Concrete batch of five candidates, two of them at or before the
cutoff 98 = 100 - 2. -/
def posts5 : List Post :=
  [⟨"1", "t1", "c1", "alice", 0, "twitter", 100, "u1"⟩,
   ⟨"2", "t2", "c2", "bob", 0, "twitter", 99, "u2"⟩,
   ⟨"3", "t3", "c3", "carol", 0, "twitter", 99, "u3"⟩,
   ⟨"4", "t4", "c4", "dave", 0, "twitter", 98, "u4"⟩,
   ⟨"5", "t5", "c5", "erin", 0, "twitter", 97, "u5"⟩]

/-- Environment whose content source returns the five-candidate batch. -/
def envPosts5 : Env :=
  { sampleEnv with queryWorkRantTweets := fun _ => Except.ok posts5 }

/-- Witness for C4: of the five candidates with two at or before the
cutoff, exactly three are eligible. -/
theorem postRoutine_ageFilter_witness :
    (recentPostsOf envPosts5.now cfgProd.maxContentAgeDays posts5).length = 3 :=
  (postRoutine_ageFilter envPosts5 cfgProd [] posts5 rfl).2.1 (by decide) (by decide)

/-- Claim C9: with MaxContentAgeDays = 0 the cutoff is the current
instant, which lies at or after the current day's midnight; hence every
candidate the filter keeps has createdAt strictly after that
midnight-adjusted cutoff, and the filtered set can be non-empty only when
some fetched candidate (all dated today) is strictly after it. -/
theorem postRoutine_midnightCutoff (env : Env) (cfg : SchedulerConfig)
    (posts : List Post) (midnight : Int)
    (hage : cfg.maxContentAgeDays = 0) (hmid : midnight ≤ env.now)
    (_htoday : ∀ p ∈ posts, midnight ≤ p.createdAt) :
    (∀ p ∈ recentPostsOf env.now cfg.maxContentAgeDays posts, midnight < p.createdAt) ∧
    (recentPostsOf env.now cfg.maxContentAgeDays posts ≠ [] →
      ∃ p ∈ posts, midnight < p.createdAt) := by
  have hmem : ∀ p ∈ recentPostsOf env.now cfg.maxContentAgeDays posts,
      midnight < p.createdAt := by
    intro p hp
    rw [hage] at hp
    simp only [recentPostsOf, List.mem_filter, decide_eq_true_eq] at hp
    have := hp.2
    omega
  refine ⟨hmem, ?_⟩
  intro hne
  obtain ⟨p, hp⟩ := List.exists_mem_of_ne_nil _ hne
  have hp2 := hp
  simp only [recentPostsOf, List.mem_filter] at hp2
  exact ⟨p, hp2.1, hmem p hp⟩

/-- Configuration with MaxContentAgeDays = 0 and TestMode unset. -/
def cfgAge0 : SchedulerConfig := ⟨[12], 4, 3, 0, "workplace humor", false⟩

/-- Witness for C9 at the five-candidate batch, midnight 90 and now
100: every kept candidate is strictly after midnight, and non-emptiness
of the filtered set exhibits such a candidate. -/
theorem postRoutine_midnightCutoff_witness :
    (∀ p ∈ recentPostsOf envPosts5.now cfgAge0.maxContentAgeDays posts5,
      (90 : Int) < p.createdAt) ∧
    (recentPostsOf envPosts5.now cfgAge0.maxContentAgeDays posts5 ≠ [] →
      ∃ p ∈ posts5, (90 : Int) < p.createdAt) :=
  postRoutine_midnightCutoff envPosts5 cfgAge0 posts5 90 rfl (by decide) (by decide)

theorem dedup_foldl_nodup (sentinel : String) : ∀ (posts : List Post) (acc : List String),
    acc.Nodup →
    (posts.foldl (fun authors p =>
      if p.author ∈ authors ∨ p.author = sentinel then authors
      else authors ++ [p.author]) acc).Nodup := by
  intro posts
  induction posts with
  | nil => intro acc h; exact h
  | cons p rest ih =>
    intro acc h
    simp only [List.foldl_cons]
    by_cases hc : p.author ∈ acc ∨ p.author = sentinel
    · rw [if_pos hc]
      exact ih acc h
    · rw [if_neg hc]
      push_neg at hc
      refine ih _ (List.Nodup.append h (List.nodup_singleton _) ?_)
      intro x hx hx2
      simp only [List.mem_singleton] at hx2
      subst hx2
      exact hc.1 hx

theorem dedup_foldl_sentinel (sentinel : String) : ∀ (posts : List Post) (acc : List String),
    sentinel ∉ acc →
    sentinel ∉ posts.foldl (fun authors p =>
      if p.author ∈ authors ∨ p.author = sentinel then authors
      else authors ++ [p.author]) acc := by
  intro posts
  induction posts with
  | nil => intro acc h; exact h
  | cons p rest ih =>
    intro acc h
    simp only [List.foldl_cons]
    by_cases hc : p.author ∈ acc ∨ p.author = sentinel
    · rw [if_pos hc]
      exact ih acc h
    · rw [if_neg hc]
      push_neg at hc
      refine ih _ ?_
      simp only [List.mem_append, List.mem_singleton, not_or]
      exact ⟨h, fun he => hc.2 he.symm⟩

theorem collectAuthors_nodup (posts : List Post) : (collectAuthors posts).Nodup :=
  dedup_foldl_nodup "" posts [] List.nodup_nil

theorem collectAuthors_no_empty (posts : List Post) : "" ∉ collectAuthors posts :=
  dedup_foldl_sentinel "" posts [] (by simp)

theorem collectAuthorsThreads_nodup (posts : List Post) : (collectAuthorsThreads posts).Nodup :=
  dedup_foldl_nodup "[deleted]" posts [] List.nodup_nil

theorem collectAuthorsThreads_no_deleted (posts : List Post) :
    "[deleted]" ∉ collectAuthorsThreads posts :=
  dedup_foldl_sentinel "[deleted]" posts [] (by simp)

/-- Candidate whose author is the "[deleted]" sentinel. -/
def delPost : Post := ⟨"1", "t", "c", "[deleted]", 0, "twitter", 100, "u"⟩

/-- Environment whose batch's sole author is the "[deleted]" sentinel. -/
def envDeleted : Env :=
  { sampleEnv with queryWorkRantTweets := fun _ => Except.ok [delPost] }

/-- Counterexample to C8 as stated: in src/internal/scheduler.go the
author pool only excludes empty authors, not the "[deleted]" sentinel —
on a batch whose sole author is "[deleted]" the follow routine makes a
follow call targeting the deleted-sentinel handle. -/
theorem followPool_deleted_counterexample :
    followCallsOf (followRoutine envDeleted cfgProd []).1 = ["[deleted]"] := by decide

/-- Claim C8 (amended): each variant's author pool holds each author
identity at most once; the internal-package pool excludes empty authors
(but not the "[deleted]" sentinel), while the part_011 pool excludes the
"[deleted]" sentinel (but not empty authors). -/
theorem followPool_dedup (posts : List Post) :
    (collectAuthors posts).Nodup ∧ "" ∉ collectAuthors posts ∧
    (collectAuthorsThreads posts).Nodup ∧ "[deleted]" ∉ collectAuthorsThreads posts :=
  ⟨collectAuthors_nodup posts, collectAuthors_no_empty posts,
   collectAuthorsThreads_nodup posts, collectAuthorsThreads_no_deleted posts⟩

/-- Claim C5: for every fetched batch the Follow routine makes exactly
min(FollowUsersPerDay, number of distinct valid authors) follow calls —
the count is the same for every collaborator behaviour, so individual
follow failures do not reduce it — and the called authors are pairwise
distinct (sampling without replacement). -/
theorem followRoutine_sampling (env : Env) (cfg : SchedulerConfig) (rng : RandStream)
    (posts : List Post) (hq : env.queryWorkRantTweets 20 = Except.ok posts) :
    (followCallsOf (followRoutine env cfg rng).1).length =
      min cfg.followUsersPerDay (collectAuthors posts).length ∧
    (followCallsOf (followRoutine env cfg rng).1).Nodup := by
  have hlen := engageLoop_calls_length
    (fun e => match e with | Event.followCall a => some a | _ => none)
    env.followUser Event.followCall "failed to follow user" "followed user" 2 3
    (fun s => rfl) (fun a v => rfl) rfl rfl (fun s => rfl)
    (min cfg.followUsersPerDay (collectAuthors posts).length) (collectAuthors posts) rng
  have hsam := engageLoop_calls_sampled
    (fun e => match e with | Event.followCall a => some a | _ => none)
    env.followUser Event.followCall "failed to follow user" "followed user" 2 3
    (fun s => rfl) (fun a v => rfl) rfl rfl (fun s => rfl)
    (min cfg.followUsersPerDay (collectAuthors posts).length) (collectAuthors posts) rng
    (Nat.min_le_right _ _) (collectAuthors_nodup posts)
  simp only [followRoutine, hq]
  by_cases h0 : (collectAuthors posts).length = 0
  · simp [h0, followCallsOf]
  · simp only [h0, if_false, followCallsOf, List.filterMap_append, List.filterMap_cons,
      List.nil_append]
    exact ⟨hlen, hsam.1⟩

/-- Batch of ten candidates with ten distinct non-empty authors. -/
def posts10 : List Post :=
  [⟨"1", "t", "c", "a0", 0, "twitter", 100, "u"⟩,
   ⟨"2", "t", "c", "a1", 0, "twitter", 100, "u"⟩,
   ⟨"3", "t", "c", "a2", 0, "twitter", 100, "u"⟩,
   ⟨"4", "t", "c", "a3", 0, "twitter", 100, "u"⟩,
   ⟨"5", "t", "c", "a4", 0, "twitter", 100, "u"⟩,
   ⟨"6", "t", "c", "a5", 0, "twitter", 100, "u"⟩,
   ⟨"7", "t", "c", "a6", 0, "twitter", 100, "u"⟩,
   ⟨"8", "t", "c", "a7", 0, "twitter", 100, "u"⟩,
   ⟨"9", "t", "c", "a8", 0, "twitter", 100, "u"⟩,
   ⟨"10", "t", "c", "a9", 0, "twitter", 100, "u"⟩]

/-- Environment returning the ten-author batch. -/
def envAuthors10 : Env :=
  { sampleEnv with queryWorkRantTweets := fun _ => Except.ok posts10 }

/-- Batch of two candidates with two distinct non-empty authors. -/
def posts2 : List Post :=
  [⟨"1", "t", "c", "a0", 0, "twitter", 100, "u"⟩,
   ⟨"2", "t", "c", "a1", 0, "twitter", 100, "u"⟩]

/-- Environment returning the two-author batch. -/
def envAuthors2 : Env :=
  { sampleEnv with queryWorkRantTweets := fun _ => Except.ok posts2 }

/-- Configuration asking for ten follows per day. -/
def cfgMany : SchedulerConfig := ⟨[12], 10, 3, 2, "workplace humor", false⟩

/-- Witness for C5: ten distinct authors with FollowUsersPerDay = 4 give
exactly 4 distinct follow calls; two distinct authors with
FollowUsersPerDay = 10 give exactly 2 (clamped). -/
theorem followRoutine_sampling_witness :
    (followCallsOf (followRoutine envAuthors10 cfgProd []).1).length = 4 ∧
    (followCallsOf (followRoutine envAuthors10 cfgProd []).1).Nodup ∧
    (followCallsOf (followRoutine envAuthors2 cfgMany []).1).length = 2 := by
  refine ⟨?_, (followRoutine_sampling envAuthors10 cfgProd [] posts10 rfl).2, ?_⟩
  · rw [(followRoutine_sampling envAuthors10 cfgProd [] posts10 rfl).1]
    decide
  · rw [(followRoutine_sampling envAuthors2 cfgMany [] posts2 rfl).1]
    decide

/-- Counterexample to C6 as stated: truncating a 10-character text with
limit 5 yields an 8-character result — the three-character ellipsis is
appended after the cut, so the returned length exceeds the limit (and, no
whitespace being present, the text is cut mid-word). -/
theorem truncate_overflow_counterexample :
    (TruncateForThreads ['a', 'b', 'c', 'd', 'e', 'f', 'g', 'h', 'i', 'j'] 5).length = 8 ∧
    ¬ (TruncateForThreads ['a', 'b', 'c', 'd', 'e', 'f', 'g', 'h', 'i', 'j'] 5).length ≤ 5 := by
  decide

/-- Claim C6 (amended): text no longer than the limit — including text of
exactly the limit — is returned unchanged; longer text is cut to its
first maxChars characters and, when those contain a space, back to
before the last such space (a word boundary; with no space the cut is
mid-word), then a three-character ellipsis is appended, so the result
length is bounded by maxChars + 3 rather than by maxChars.
truncateContent (part_009) behaves identically. -/
theorem truncate_spec (content : List Char) (maxChars : Nat) :
    (content.length ≤ maxChars → TruncateForThreads content maxChars = content) ∧
    (TruncateForThreads content maxChars).length ≤ maxChars + 3 ∧
    (∀ pre, maxChars < content.length →
      cutAtLastSpace (content.take maxChars) = some pre →
      TruncateForThreads content maxChars = pre ++ ellipsis ∧
      ∃ suf, content.take maxChars = pre ++ ' ' :: suf ∧ ' ' ∉ suf) ∧
    truncateContent content maxChars = TruncateForThreads content maxChars := by
  refine ⟨?_, ?_, ?_, rfl⟩
  · intro h
    simp [TruncateForThreads, h]
  · by_cases h : content.length ≤ maxChars
    · simp only [TruncateForThreads, if_pos h]
      omega
    · simp only [TruncateForThreads, if_neg h]
      have htake : (content.take maxChars).length ≤ maxChars := by
        simp [List.length_take]
      cases hcut : cutAtLastSpace (content.take maxChars) with
      | some pre =>
        have := cutAtLastSpace_length hcut
        simp only [List.length_append, ellipsis, List.length_cons, List.length_nil]
        omega
      | none =>
        simp only [List.length_append, ellipsis, List.length_cons, List.length_nil]
        omega
  · intro pre hgt hcut
    constructor
    · simp [TruncateForThreads, Nat.not_le.mpr hgt, hcut]
    · exact cutAtLastSpace_some hcut

/-- Witness for the amended C6: a 3-character text with limit 3 is
unchanged, and a 7-character text with limit 6 truncates to the word
boundary with the ellipsis appended. -/
theorem truncate_spec_witness :
    TruncateForThreads ['a', 'b', 'c'] 3 = ['a', 'b', 'c'] ∧
    (TruncateForThreads ['a', 'b', ' ', 'c', 'd', 'e', 'f'] 6).length ≤ 9 ∧
    TruncateForThreads ['a', 'b', ' ', 'c', 'd', 'e', 'f'] 6 = ['a', 'b'] ++ ellipsis :=
  ⟨(truncate_spec ['a', 'b', 'c'] 3).1 (by decide),
   (truncate_spec ['a', 'b', ' ', 'c', 'd', 'e', 'f'] 6).2.1,
   ((truncate_spec ['a', 'b', ' ', 'c', 'd', 'e', 'f'] 6).2.2.1 ['a', 'b'] (by decide)
     (by decide)).1⟩

/-- Configuration with LikePostsPerDay = 0 and TestMode unset. -/
def cfgLike0 : SchedulerConfig := ⟨[12], 4, 0, 2, "workplace humor", false⟩

/-- Counterexample to C7 as stated: with LikePostsPerDay = 0 the
likeRoutine of src/internal/scheduler.go still makes one GetRecentPosts
(timeline-listing) call, because the listing happens before the count is
consulted; it also logs no skip. -/
theorem likeRoutine_zero_counterexample :
    cfgLike0.likePostsPerDay = 0 ∧
    listRecentCallsOf (likeRoutine sampleEnv cfgLike0 []).1 = 1 := by decide

/-- Claim C7 (amended): with LikePostsPerDay = 0 the scheduler-package
likeRoutine logs the skip and calls the destination not at all, and the
internal-package likeRoutine makes zero like calls and returns without
error — but the latter still makes exactly one timeline-listing call and
logs no skip. -/
theorem likeRoutine_zeroCount (env : Env) (cfg : SchedulerConfig) (rng : RandStream)
    (h : cfg.likePostsPerDay = 0) :
    likeRoutineV2 env cfg.likePostsPerDay =
      [Event.logInfo "starting like routine",
       Event.logInfo "like routine skipped (LikePostsPerDay is 0)"] ∧
    (∀ pid, Event.likeCall pid ∉ (likeRoutine env cfg rng).1) ∧
    listRecentCallsOf (likeRoutine env cfg rng).1 = 1 := by
  refine ⟨by simp [likeRoutineV2, h], ?_, ?_⟩
  · intro pid
    simp only [likeRoutine]
    split
    · simp
    · split
      · simp
      · simp [h, engageLoop]
  · simp only [likeRoutine]
    split
    · simp [listRecentCallsOf]
    · split
      · simp [listRecentCallsOf]
      · simp [h, engageLoop, listRecentCallsOf]

/-- Witness for the amended C7 at the sample environment. -/
theorem likeRoutine_zeroCount_witness :
    likeRoutineV2 sampleEnv cfgLike0.likePostsPerDay =
      [Event.logInfo "starting like routine",
       Event.logInfo "like routine skipped (LikePostsPerDay is 0)"] ∧
    (∀ pid, Event.likeCall pid ∉ (likeRoutine sampleEnv cfgLike0 []).1) ∧
    listRecentCallsOf (likeRoutine sampleEnv cfgLike0 []).1 = 1 :=
  likeRoutine_zeroCount sampleEnv cfgLike0 [] rfl

theorem drawsOk_append {l1 l2 : List Event} (h1 : drawsOk l1) (h2 : drawsOk l2) :
    drawsOk (l1 ++ l2) := by
  intro a v h
  rcases List.mem_append.mp h with h | h
  · exact h1 a v h
  · exact h2 a v h

theorem drawsOk_noDraw {l : List Event} (h : ∀ a v, Event.draw a v ∉ l) : drawsOk l :=
  fun a v hm => absurd hm (h a v)

/-- Claim C10: every random draw made by the three routines has a
positive rand.Intn argument and yields a value below it — in particular
every randomized index into the filtered-candidate list, the author pool
and the recent-post pool is in bounds, for every environment,
configuration and random stream. -/
theorem routines_draws_inBounds (env : Env) (cfg : SchedulerConfig) (rng : RandStream) :
    drawsOk (postRoutine env cfg rng).1 ∧ drawsOk (followRoutine env cfg rng).1 ∧
    drawsOk (likeRoutine env cfg rng).1 := by
  refine ⟨?_, ?_, ?_⟩
  · simp only [postRoutine]
    split
    · exact drawsOk_noDraw (by intro a v; simp)
    · split
      · exact drawsOk_noDraw (by intro a v; simp)
      · split
        · exact drawsOk_noDraw (by intro a v; simp)
        next posts hq h0 h1 =>
          have hpos : 0 < (recentPostsOf env.now cfg.maxContentAgeDays posts).length :=
            Nat.pos_of_ne_zero h1
          have hmain : drawsOk ([Event.logInfo "starting post creation routine",
              Event.queryTweets 10] ++
              [Event.draw (recentPostsOf env.now cfg.maxContentAgeDays posts).length
                 (randIntn rng (recentPostsOf env.now cfg.maxContentAgeDays posts).length).1,
               Event.logDebug "selected post",
               Event.generateCall ((recentPostsOf env.now cfg.maxContentAgeDays posts).getD
                 (randIntn rng (recentPostsOf env.now cfg.maxContentAgeDays posts).length).1
                 default)]) := by
            intro a v hm
            simp only [List.mem_append, List.mem_cons, List.not_mem_nil] at hm
            rcases hm with (h | h | h) | (h | h | h | h)
            all_goals first
              | (injection h with h1 h2; subst h1; subst h2; exact ⟨hpos, randIntn_lt hpos⟩)
              | exact absurd h (by simp)
          split
          · exact drawsOk_append hmain (drawsOk_noDraw (by intro a v; simp))
          · split
            · exact drawsOk_append hmain (drawsOk_noDraw (by intro a v; simp))
            · exact drawsOk_append hmain (drawsOk_noDraw (by intro a v; simp))
  · simp only [followRoutine]
    split
    · exact drawsOk_noDraw (by intro a v; simp)
    · split
      · exact drawsOk_noDraw (by intro a v; simp)
      · refine drawsOk_append (drawsOk_noDraw (by intro a v; simp)) ?_
        exact engageLoop_drawsOk env.followUser Event.followCall
          "failed to follow user" "followed user" 2 3 (by norm_num)
          (fun s a v => by simp) _ _ rng (Nat.min_le_right _ _)
  · simp only [likeRoutine]
    split
    · exact drawsOk_noDraw (by intro a v; simp)
    · split
      · exact drawsOk_noDraw (by intro a v; simp)
      · refine drawsOk_append (drawsOk_noDraw (by intro a v; simp)) ?_
        exact engageLoop_drawsOk env.likePost Event.likeCall
          "failed to like post" "liked post" 1 2 (by norm_num)
          (fun s a v => by simp) _ _ rng (Nat.min_le_right _ _)

end SocialAgent
